import Mathlib

/-!
Verification development for the freesper inference engine
(`src/modules/inferenceEngine.js`).

The JavaScript source is shallowly embedded: pure computations become Lean
functions, the neural-network sessions (decoder / joiner graphs) become
oracle functions supplied as parameters, float32 logits are modelled as
rationals (the order-theoretic content of the claims only involves
comparisons of finite values, and `-Infinity` is modelled by `Option.none`
in the running maximum), and the imperative loops become fuel-indexed
structural recursions whose fuel equals the source loop bounds.
-/

namespace Freesper

/-! ## Greedy argmax selection (transducer and autoregressive decode)

Embeds the argmax loops of `greedyTransducerDecode` (lines 803-830) and
`autoregressiveDecode` (lines 1128-1135): a running maximum initialized to
`-Infinity` (modelled as `none`), updated by strict greater-than comparison,
scanning indices `0 .. bound-1`. -/

/-- Comparison `logits[v] > maxLogit` where `maxLogit = -Infinity` is `none`:
any finite logit beats `-Infinity`. -/
def beatsMax (x : ℚ) : Option ℚ → Bool
  | none => true
  | some m => decide (m < x)

/-- The argmax scan: `remaining` indices left to visit starting at `v`, with
the running maximum `maxLogit` and current best index `best`. -/
def argmaxGo (logits : ℕ → ℚ) : ℕ → ℕ → Option ℚ → ℕ → ℕ
  | 0, _, _, best => best
  | n + 1, v, maxLogit, best =>
    if beatsMax (logits v) maxLogit then
      argmaxGo logits n (v + 1) (some (logits v)) v
    else
      argmaxGo logits n (v + 1) maxLogit best

/-- Transducer-decode argmax (lines 803-830): scans `0 .. maxValidToken-1`,
`bestToken` initialized to `blankId`.  The source copies the joiner logits
unmodified (`adjustedLogits = new Float32Array(logits.data)`, no blank
penalty applied), so the scanned values are the raw logits. -/
def transducerArgmax (logits : ℕ → ℚ) (maxValidToken blankId : ℕ) : ℕ :=
  argmaxGo logits maxValidToken 0 none blankId

/-! ## Transducer decode loop (`greedyTransducerDecode`, lines 723-871)

The decoder graph (`decoderSession.run`) and joiner graph
(`joinerSession.run`) are oracles.  The decoder consumes the previous token
and the two LSTM state buffers and produces a decoder output vector plus
(optionally present) new state buffers; the joiner consumes the encoder
frame (determined by the frame index `t`, since the encoder output tensor
is fixed for the whole decode) and the decoder output, and produces the
logits together with the joiner vocabulary size (`logits.dims` last entry).
State buffers and decoder outputs are abstract types `σ` and `δ`. -/

structure TDModel (σ δ : Type) where
  dec : ℕ → σ → σ → δ × Option σ × Option σ
  joiner : ℕ → δ → (ℕ → ℚ) × ℕ

/-- Mutable state of the decode loop: emitted token ids, the two decoder
state buffers, and `prevToken`. -/
structure TDState (σ : Type) where
  tokenIds : List ℕ
  s1 : σ
  s2 : σ
  prevToken : ℕ

/-- Decoder output vector for the current inner step (`decoderOutputs['outputs']`). -/
def decOut {σ δ : Type} (M : TDModel σ δ) (st : TDState σ) : δ :=
  (M.dec st.prevToken st.s1 st.s2).1

/-- Newly returned first state buffer (`decoderOutputs['states']`), possibly absent. -/
def newS1 {σ δ : Type} (M : TDModel σ δ) (st : TDState σ) : Option σ :=
  (M.dec st.prevToken st.s1 st.s2).2.1

/-- Newly returned second state buffer (`decoderOutputs['162']`), possibly absent. -/
def newS2 {σ δ : Type} (M : TDModel σ δ) (st : TDState σ) : Option σ :=
  (M.dec st.prevToken st.s1 st.s2).2.2

/-- Joiner logits for the current inner step. -/
def jLogits {σ δ : Type} (M : TDModel σ δ) (t : ℕ) (st : TDState σ) : ℕ → ℚ :=
  (M.joiner t (decOut M st)).1

/-- Joiner vocabulary size (`logits.dims[logits.dims.length - 1]`). -/
def jVocab {σ δ : Type} (M : TDModel σ δ) (t : ℕ) (st : TDState σ) : ℕ :=
  (M.joiner t (decOut M st)).2

/-- Token selected at one inner step: raw argmax over
`0 .. min(joinerVocabSize, tokenVocabSize) - 1` with `bestToken`
initialized to the blank id `tokensLen - 1` (lines 796-830; the source is
embedded in the vocabulary-loaded case, where
`blankId = this.tokens.length - 1` and `decoderVocabSize = this.tokens.length`). -/
def selTok {σ δ : Type} (M : TDModel σ δ) (tokensLen t : ℕ) (st : TDState σ) : ℕ :=
  transducerArgmax (jLogits M t st) (min (jVocab M t st) tokensLen) (tokensLen - 1)

/-- Commit the decoder state buffers returned by this step: the source
updates each buffer only when the corresponding output is present
(`if (newState1) decoderState1 = ...`). -/
def commitStates {σ δ : Type} (M : TDModel σ δ) (st : TDState σ) : σ × σ :=
  ((newS1 M st).getD st.s1, (newS2 M st).getD st.s2)

/-- Inner loop (lines 762-862): `while (!emittedThisFrame && innerSteps < 10)`,
fuel-indexed by the remaining iteration budget (10 at frame entry).  Returns
the final loop state together with the number of iterations executed.  On a
blank selection the loop exits (frame exhausted); on a non-blank selection
the token is appended, states committed, `prevToken` updated, and the loop
repeats on the same frame. -/
def innerLoop {σ δ : Type} (M : TDModel σ δ) (tokensLen t : ℕ) :
    ℕ → TDState σ → TDState σ × ℕ
  | 0, st => (st, 0)
  | fuel + 1, st =>
    let best := selTok M tokensLen t st
    let s1' := ((newS1 M st).getD st.s1)
    let s2' := ((newS2 M st).getD st.s2)
    if best = tokensLen - 1 then
      ({ st with s1 := s1', s2 := s2' }, 1)
    else
      let r := innerLoop M tokensLen t fuel
        { tokenIds := st.tokenIds ++ [best], s1 := s1', s2 := s2', prevToken := best }
      (r.1, r.2 + 1)

/-- Outer loop (lines 750-868): `for (t = 0; t < T && tokenIds.length < maxSteps; t++)`
with `maxSteps = 500`; each iteration runs the inner loop with budget 10 on
frame `t`.  Fuel-indexed structurally (the decode enters with `fuel = T`,
which dominates the remaining frame count).  Returns the final state and
the number of outer iterations executed. -/
def outerLoop {σ δ : Type} (M : TDModel σ δ) (tokensLen T : ℕ) :
    ℕ → ℕ → TDState σ → TDState σ × ℕ
  | 0, _, st => (st, 0)
  | fuel + 1, t, st =>
    if t < T ∧ st.tokenIds.length < 500 then
      let st' := (innerLoop M tokensLen t 10 st).1
      let r := outerLoop M tokensLen T fuel (t + 1) st'
      (r.1, r.2 + 1)
    else
      (st, 0)

/-- Initial decode-loop state: empty output, caller-supplied zero state
buffers, `prevToken` = blank id (line 748). -/
def initTD {σ : Type} (tokensLen : ℕ) (s10 s20 : σ) : TDState σ :=
  { tokenIds := [], s1 := s10, s2 := s20, prevToken := tokensLen - 1 }

/-- The greedy transducer decode (lines 723-871): emitted token ids for a
`T`-frame encoder output. -/
def greedyTransducerDecode {σ δ : Type} (M : TDModel σ δ) (tokensLen T : ℕ)
    (s10 s20 : σ) : List ℕ :=
  (outerLoop M tokensLen T T 0 (initTD tokensLen s10 s20)).1.tokenIds

/-- Number of outer-loop iterations a decode performs. -/
def outerIters {σ δ : Type} (M : TDModel σ δ) (tokensLen T : ℕ)
    (s10 s20 : σ) : ℕ :=
  (outerLoop M tokensLen T T 0 (initTD tokensLen s10 s20)).2


/-- Witness model: decoder/joiner oracle whose argmax always selects the blank
id 1 (vocabulary size 2). -/
def M0 : TDModel Unit Unit where
  dec := fun _ _ _ => ((), some (), some ())
  joiner := fun _ _ => (fun v => if v = 1 then 1 else 0, 2)

/-- Witness model: decoder/joiner oracle whose argmax never selects blank
(always selects token 0). -/
def M1 : TDModel Unit Unit where
  dec := fun _ _ _ => ((), some (), some ())
  joiner := fun _ _ => (fun v => if v = 0 then 1 else 0, 2)

/-- Counterexample model for the 500-token cap: the decoder state counts joint
evaluations, and the joiner selects blank exactly at every 10th evaluation, so
each frame emits 9 tokens and frame boundaries land just under the cap before
overshooting it. -/
def M2 : TDModel ℕ ℕ where
  dec := fun _ c _ => (c + 1, some (c + 1), some (c + 1))
  joiner := fun _ d =>
    (fun v => if d % 10 = 0 then (if v = 1 then 1 else 0) else (if v = 0 then 1 else 0), 2)

/-- Witness model for the argmax range restriction: joiner vocabulary 5, token
vocabulary 2, and the largest logit sits at the invalid index 4. -/
def M3 : TDModel Unit Unit where
  dec := fun _ _ _ => ((), some (), some ())
  joiner := fun _ _ => (fun v => if v = 4 then 10 else if v = 1 then 1 else 0, 5)


/-! ## Text reconstruction (`decodeTransducerTokens`, lines 873-902)

The source file stores one token string per vocabulary index in
`this.tokens`; ids outside the vocabulary are skipped, the special tokens
`<blk>`, `<blank>`, `<unk>` are skipped, a token whose first character is
the SentencePiece word-boundary marker `▁` is appended with the marker
replaced by a single space (`text += ' ' + token.slice(1)`), and any other
token is appended verbatim.  The final text is trimmed.  JS string
primitives (`startsWith` with a one-character argument, `slice(1)`,
`trim()`) are modelled at the character-list level. -/

/-- JS `String.prototype.trim`: strip leading and trailing whitespace. -/
def jsTrim (s : String) : String :=
  ⟨((s.data.dropWhile Char.isWhitespace).reverse.dropWhile Char.isWhitespace).reverse⟩

/-- One iteration of the `for (const id of tokenIds)` loop body (lines 883-899). -/
def transducerTokenStep (tokens : List String) (text : String) (id : ℕ) : String :=
  if h : id < tokens.length then
    let token := tokens.get ⟨id, h⟩
    if token = "<blk>" ∨ token = "<blank>" ∨ token = "<unk>" then text
    else if token.data.head? = some '▁' then text ++ " " ++ ⟨token.data.drop 1⟩
    else text ++ token
  else text

/-- Token-id sequence to display text (lines 873-902).  With an empty or
missing vocabulary the source falls back to printing bracketed ids. -/
def decodeTransducerTokens (tokens : List String) (tokenIds : List ℕ) : String :=
  if tokens.length = 0 then
    String.join (tokenIds.map (fun id => "[" ++ toString id ++ "]"))
  else
    jsTrim (tokenIds.foldl (transducerTokenStep tokens) "")

/-! ## Feature-length normalization (`padFeaturesToWhisperLength`, lines 1202-1257)

The feature tensor is a flat `Float32Array` plus `dims = [batch, nMels,
timeSteps]`, modelled as an index function with the three dimensions.  The
source allocates a zero-initialized output array of size
`batch * 80 * 3000` and fills it with a triple loop over `(b, mel, t)`:
when `timeSteps < 3000` it copies only `t < timeSteps` (leaving the rest at
the zero initialization), when `timeSteps > 3000` it copies every
`t < 3000` (dropping trailing frames, with a truncation warning —
modelled as the `Bool` component of the result).  The loop is embedded as
a fold of `Function.update` writes over the enumerated index triples, and a
mel-bin count other than 80 throws. -/

structure FeatureTensor where
  data : ℕ → ℚ
  batch : ℕ
  nMels : ℕ
  timeSteps : ℕ

def writeAll (ws : List (ℕ × ℚ)) (a : ℕ → ℚ) : ℕ → ℚ :=
  ws.foldl (fun a p => Function.update a p.1 p.2) a

def padWrites (f : FeatureTensor) : List (ℕ × ℚ) :=
  (List.range f.batch).flatMap fun b =>
    (List.range 80).flatMap fun mel =>
      (List.range 3000).filterMap fun t =>
        if t < f.timeSteps then
          some (b * 80 * 3000 + mel * 3000 + t,
                f.data (b * f.nMels * f.timeSteps + mel * f.timeSteps + t))
        else none

def truncWrites (f : FeatureTensor) : List (ℕ × ℚ) :=
  (List.range f.batch).flatMap fun b =>
    (List.range 80).flatMap fun mel =>
      (List.range 3000).map fun t =>
        (b * 80 * 3000 + mel * 3000 + t,
         f.data (b * f.nMels * f.timeSteps + mel * f.timeSteps + t))

def padFeaturesToWhisperLength (f : FeatureTensor) : Except String (FeatureTensor × Bool) :=
  if f.nMels ≠ 80 then
    .error ("Expected 80 mel bins, got " ++ toString f.nMels)
  else if f.timeSteps = 3000 then .ok (f, false)
  else if f.timeSteps < 3000 then
    .ok ({ data := writeAll (padWrites f) (fun _ => 0),
           batch := f.batch, nMels := 80, timeSteps := 3000 }, false)
  else
    .ok ({ data := writeAll (truncWrites f) (fun _ => 0),
           batch := f.batch, nMels := 80, timeSteps := 3000 }, true)

/-- Witness tensor for the padding branch: 1 batch, 80 mel bins, 2 frames. -/
def fPad0 : FeatureTensor := ⟨fun i => (i : ℚ), 1, 80, 2⟩

/-- Witness tensor for the truncation branch: 3001 frames. -/
def fTrunc0 : FeatureTensor := ⟨fun i => (i : ℚ), 1, 80, 3001⟩

/-! ## Autoregressive decode (`autoregressiveDecode`, lines 1029-1162)

The split encoder/decoder sessions plus the KV caches are deterministic
functions of the token sequence generated so far, so the per-step logits are
an oracle `g : List ℕ → (ℕ → ℚ) × ℕ` mapping the current sequence to the
final-position logits slice and the vocabulary size.  Whisper special
tokens: start-of-transcript 50258, end-of-text 50257, language tokens 50259
(`en`) / 50265 (`fr`), transcribe 50359, no-timestamps 50363. -/

/-- Autoregressive argmax (lines 1128-1135): scans the full vocabulary with
the running maximum initialized to `-Infinity` and `nextTokenId` to 0. -/
def whisperArgmax (logits : ℕ → ℚ) (vocabSize : ℕ) : ℕ :=
  argmaxGo logits vocabSize 0 none 0

/-- Fixed 4-token warm-start prompt (lines 1041-1045):
start-of-transcript, language, transcribe, no-timestamps. -/
def promptTokens (language : String) : List ℕ :=
  [50258, if language = "fr" then 50265 else if language = "en" then 50259 else 50259,
   50359, 50363]

/-- Free-generation loop (lines 1098-1159): at most
`maxLength - promptTokens.length` steps; the step whose argmax equals the
end-of-text token 50257 stops generation without appending it. -/
def autoregressiveGo (g : List ℕ → (ℕ → ℚ) × ℕ) : ℕ → List ℕ → List ℕ
  | 0, acc => acc
  | fuel + 1, acc =>
    let next := whisperArgmax (g acc).1 (g acc).2
    if next = 50257 then acc
    else autoregressiveGo g fuel (acc ++ [next])

/-- The autoregressive decode (lines 1029-1162): prompt followed by greedy
free generation with `maxLength = 448`. -/
def autoregressiveDecode (g : List ℕ → (ℕ → ℚ) × ℕ) (language : String) : List ℕ :=
  autoregressiveGo g (448 - (promptTokens language).length) (promptTokens language)

/-- Witness oracle whose argmax is the end-of-text token at every step. -/
def gEOT : List ℕ → (ℕ → ℚ) × ℕ := fun _ => (fun v => if v = 50257 then 1 else 0, 50258)

/-! ## Engine state, architecture detection and model loading
(`InferenceEngine` constructor lines 36-60, `loadModel` lines 86-153,
loaders lines 155-333, `cleanup` lines 1443-1470)

Tensor sessions and the tokenizer are abstract types `S` and `TK`.  The
model directory is an environment: which files exist (paths relative to the
directory), whether the load target is a directory, and the result of
parsing `config.json` (`JSON.parse` may throw, hence `Except`; the
`model_type` field is the part the engine consults).  The runtime
environment supplies session creation (`ort.InferenceSession.create`, which
may reject), tokenizer construction, the resolvability of the sherpa driver
script, and the parsed `tokens.txt` content.  Each loader returns the
mutated engine state together with ok-or-thrown, mirroring mutation order;
`loadModel` wraps the dispatch in the source try/catch, which converts any
thrown error into `{ success: false, error }` and resets `isLoaded`. -/

structure EngineState (S TK : Type) where
  session : Option S := none
  encoderSession : Option S := none
  decoderSession : Option S := none
  decoderWithPastSession : Option S := none
  joinerSession : Option S := none
  tokens : Option (List String) := none
  modelPath : Option String := none
  modelDir : Option String := none
  architecture : Option String := none
  modelConfig : Option String := none
  tokenizer : Option TK := none
  isLoaded : Bool := false

/-- The cleanup operation (lines 1443-1470): conditionally nulls the
multi-model sessions, the single-model session and the tokenizer, then
clears `isLoaded`, `modelPath`, `modelDir`, `architecture` and
`modelConfig`.  Note the source never touches `joinerSession`. -/
def cleanup {S TK : Type} (st : EngineState S TK) : EngineState S TK :=
  let st1 := if st.encoderSession.isSome then { st with encoderSession := none } else st
  let st2 := if st1.decoderSession.isSome then { st1 with decoderSession := none } else st1
  let st3 := if st2.decoderWithPastSession.isSome then { st2 with decoderWithPastSession := none } else st2
  let st4 := if st3.session.isSome then { st3 with session := none } else st3
  let st5 := if st4.tokenizer.isSome then { st4 with tokenizer := none } else st4
  { st5 with
    isLoaded := false
    modelPath := none
    modelDir := none
    architecture := none
    modelConfig := none }

/-- Engine state right after a successful transducer load: encoder, decoder
and joiner sessions set, vocabulary loaded, `isLoaded` true. -/
def loadedTransducerState : EngineState ℕ ℕ :=
  { session := none, encoderSession := some 1, decoderSession := some 2,
    decoderWithPastSession := none, joinerSession := some 3,
    tokens := some ["a"], modelPath := none, modelDir := some "m",
    architecture := some "transducer", modelConfig := none, tokenizer := none,
    isLoaded := true }

structure ModelDirEnv where
  targetExists : Bool
  isDir : Bool
  fsExists : String → Bool
  configModelType : Except String (Option String)

inductive LoadPath
  | sherpaOnnx
  | transducerGraphs
  | whisperMulti
  | singleGraph
deriving DecidableEq

/-- Which loader `loadModel` dispatches to for a model directory
(lines 93-141): quantized sherpa triple first, then the `config.json`
`model_type: transducer` manifest, then unquantized transducer graphs
(optionally under `onnx/`), then the three-graph whisper split, then a
single `model.onnx`; otherwise the source throws. -/
def detectLoader (env : ModelDirEnv) : Except String LoadPath :=
  if env.fsExists "encoder.int8.onnx" then .ok .sherpaOnnx
  else
    match (if env.fsExists "config.json" then
            env.configModelType.map (fun mt => mt == some "transducer")
          else .ok false) with
    | .error e => .error e
    | .ok true => .ok .transducerGraphs
    | .ok false =>
      let sub := !env.fsExists "encoder.onnx" && env.fsExists "onnx"
      let encP := if sub then "onnx/encoder.onnx" else "encoder.onnx"
      let joinP := if sub then "onnx/joiner.onnx" else "joiner.onnx"
      if env.fsExists encP && env.fsExists joinP then .ok .transducerGraphs
      else if env.fsExists "encoder_model.onnx" && env.fsExists "decoder_model.onnx" &&
              env.fsExists "decoder_with_past_model.onnx" then .ok .whisperMulti
      else if env.fsExists "model.onnx" then .ok .singleGraph
      else .error "No valid model files found in directory"

/-- Number of `ort.InferenceSession.create` calls each loader performs:
`loadSherpaOnnxModel` opens none (the model runs in a Python subprocess and
is loaded on first transcription), `loadTransducerModel` opens encoder,
decoder and joiner, `loadMultiModel` opens encoder, decoder and
decoder-with-past, `loadSingleModel` opens one. -/
def sessionsOpened : LoadPath → ℕ
  | .sherpaOnnx => 0
  | .transducerGraphs => 3
  | .whisperMulti => 3
  | .singleGraph => 1

/-- The `this.architecture` string each loader assigns. -/
def architectureOf : LoadPath → String
  | .sherpaOnnx => "sherpa-onnx"
  | .transducerGraphs => "transducer"
  | .whisperMulti => "whisper-multi-model"
  | .singleGraph => "single-model"

/-- Whether the loader treats the model as externally managed (no graphs
opened in-process; transcription delegated to an external process): only
the sherpa-onnx path does. -/
def isExternalProcess : LoadPath → Bool
  | .sherpaOnnx => true
  | _ => false

structure RtEnv (S TK : Type) where
  createSession : String → Except String S
  tokenizerNew : Except String TK
  scriptFound : Bool
  tokensTxt : List String

structure LoadResult where
  success : Bool
  error : Option String

/-- `loadSherpaOnnxModel` (lines 155-184): validates the driver script and
the quantized model files, opens no sessions. -/
def loadSherpaOnnxModel {S TK : Type} (env : ModelDirEnv) (rt : RtEnv S TK) (dir : String)
    (st : EngineState S TK) : Except String Unit × EngineState S TK :=
  let st := { st with architecture := some "sherpa-onnx", modelDir := some dir }
  if rt.scriptFound = false then
    (.error "Script transcribe_sherpa_vad.py not found", st)
  else if !(env.fsExists "encoder.int8.onnx" && env.fsExists "decoder.int8.onnx" &&
            env.fsExists "joiner.int8.onnx" && env.fsExists "tokens.txt") then
    (.error "Missing model file", st)
  else
    (.ok (), { st with isLoaded := true })

/-- `loadTransducerModel` (lines 186-240): opens encoder, decoder and joiner
sessions in-process, loads `tokens.txt` and the optional config manifest. -/
def loadTransducerModel {S TK : Type} (env : ModelDirEnv) (rt : RtEnv S TK) (dir : String)
    (st : EngineState S TK) : Except String Unit × EngineState S TK :=
  let st := { st with architecture := some "transducer", modelDir := some dir }
  let sub := env.fsExists "onnx"
  let encP := if sub then "onnx/encoder.onnx" else "encoder.onnx"
  let decP := if sub then "onnx/decoder.onnx" else "decoder.onnx"
  let joinP := if sub then "onnx/joiner.onnx" else "joiner.onnx"
  match rt.createSession encP with
  | .error e => (.error e, st)
  | .ok enc =>
    let st := { st with encoderSession := some enc }
    match rt.createSession decP with
    | .error e => (.error e, st)
    | .ok dec =>
      let st := { st with decoderSession := some dec }
      match rt.createSession joinP with
      | .error e => (.error e, st)
      | .ok join =>
        let st := { st with joinerSession := some join }
        let st := if env.fsExists "tokens.txt" then { st with tokens := some rt.tokensTxt } else st
        match (if env.fsExists "config.json" then env.configModelType else .ok none) with
        | .error e => (.error e, st)
        | .ok cfg =>
          let st := if env.fsExists "config.json" then { st with modelConfig := cfg } else st
          (.ok (), { st with isLoaded := true })

/-- `loadMultiModel` (lines 242-292): opens the three whisper graphs; a
tokenizer failure is caught and does not fail the load. -/
def loadMultiModel {S TK : Type} (env : ModelDirEnv) (rt : RtEnv S TK) (dir : String)
    (st : EngineState S TK) : Except String Unit × EngineState S TK :=
  let st := { st with architecture := some "whisper-multi-model", modelDir := some dir }
  match rt.createSession "encoder_model.onnx" with
  | .error e => (.error e, st)
  | .ok enc =>
    let st := { st with encoderSession := some enc }
    match rt.createSession "decoder_model.onnx" with
    | .error e => (.error e, st)
    | .ok dec =>
      let st := { st with decoderSession := some dec }
      match rt.createSession "decoder_with_past_model.onnx" with
      | .error e => (.error e, st)
      | .ok dwp =>
        let st := { st with decoderWithPastSession := some dwp }
        match (if env.fsExists "config.json" then env.configModelType else .ok none) with
        | .error e => (.error e, st)
        | .ok cfg =>
          let st := if env.fsExists "config.json" then { st with modelConfig := cfg } else st
          let st := match rt.tokenizerNew with
            | .ok tk => { st with tokenizer := some tk }
            | .error _ => st
          (.ok (), { st with isLoaded := true })

/-- `loadSingleModel` (lines 294-333). -/
def loadSingleModel {S TK : Type} (env : ModelDirEnv) (rt : RtEnv S TK) (path : String)
    (st : EngineState S TK) : Except String Unit × EngineState S TK :=
  let st := { st with architecture := some "single-model", modelPath := some path }
  match (if env.fsExists "config.json" then env.configModelType else .ok none) with
  | .error e => (.error e, st)
  | .ok cfg =>
    let st := if env.fsExists "config.json" then { st with modelConfig := cfg } else st
    match rt.createSession path with
    | .error e => (.error e, st)
    | .ok sess =>
      let st := { st with session := some sess, isLoaded := true }
      let st := match rt.tokenizerNew with
        | .ok tk => { st with tokenizer := some tk }
        | .error _ => st
      (.ok (), st)

/-- The try/catch of `loadModel` (lines 87, 148-152): success resolves with
`{ success: true }`; any thrown error resolves with
`{ success: false, error }` and `isLoaded = false`. -/
def finalizeLoad {S TK : Type} :
    Except String Unit × EngineState S TK → LoadResult × EngineState S TK
  | (.ok _, st2) => ({ success := true, error := none }, st2)
  | (.error e, st2) => ({ success := false, error := some e }, { st2 with isLoaded := false })

/-- `loadModel` (lines 86-153): directory dispatch via `detectLoader`, file
path handled as a single model, all wrapped in the catch. -/
def loadModel {S TK : Type} (env : ModelDirEnv) (rt : RtEnv S TK) (dir : String)
    (st : EngineState S TK) : LoadResult × EngineState S TK :=
  finalizeLoad
    (if env.targetExists && env.isDir then
      match detectLoader env with
      | .error e => (.error e, st)
      | .ok .sherpaOnnx => loadSherpaOnnxModel env rt dir st
      | .ok .transducerGraphs => loadTransducerModel env rt dir st
      | .ok .whisperMulti => loadMultiModel env rt dir st
      | .ok .singleGraph => loadSingleModel env rt "model.onnx" st
    else
      loadSingleModel env rt dir st)

/-- Model directory containing only `config.json`, which declares
`model_type: transducer`; no quantized encoder present. -/
def envConfigTransducer : ModelDirEnv :=
  { targetExists := true, isDir := true,
    fsExists := fun s => s == "config.json",
    configModelType := .ok (some "transducer") }

/-! ## Theorems -/

lemma argmaxGo_spec (logits : ℕ → ℚ) :
    ∀ (n v : ℕ) (m : ℚ) (best : ℕ),
      logits best = m → best < v →
      (∀ u, u < v → logits u ≤ m) → (∀ u, u < v → logits u = m → best ≤ u) →
      argmaxGo logits n v (some m) best < v + n ∧
      (∀ u, u < v + n → logits u ≤ logits (argmaxGo logits n v (some m) best)) ∧
      (∀ u, u < v + n → logits u = logits (argmaxGo logits n v (some m) best) →
        argmaxGo logits n v (some m) best ≤ u) := by
  intro n
  induction n with
  | zero =>
    intro v m best hb hv hle htie
    simp only [argmaxGo, Nat.add_zero]
    exact ⟨hv, fun u hu => hb ▸ hle u hu, fun u hu he => htie u hu (hb ▸ he)⟩
  | succ n ih =>
    intro v m best hb hv hle htie
    by_cases hgt : m < logits v
    · have hcond : beatsMax (logits v) (some m) = true := by
        simp [beatsMax, hgt]
      have heq : argmaxGo logits (n + 1) v (some m) best
          = argmaxGo logits n (v + 1) (some (logits v)) v := by
        simp [argmaxGo, hcond]
      have h1 : ∀ u, u < v + 1 → logits u ≤ logits v := by
        intro u hu
        rcases Nat.lt_succ_iff_lt_or_eq.mp hu with h | h
        · exact le_of_lt (lt_of_le_of_lt (hle u h) hgt)
        · exact h ▸ le_refl _
      have h2 : ∀ u, u < v + 1 → logits u = logits v → v ≤ u := by
        intro u hu he
        rcases Nat.lt_succ_iff_lt_or_eq.mp hu with h | h
        · exact absurd he (ne_of_lt (lt_of_le_of_lt (hle u h) hgt))
        · exact h ▸ le_refl _
      have := ih (v + 1) (logits v) v rfl (Nat.lt_succ_self v) h1 h2
      rw [heq]
      have harith : v + 1 + n = v + (n + 1) := by omega
      rw [harith] at this
      exact this
    · have hcond : beatsMax (logits v) (some m) = false := by
        simp [beatsMax, hgt]
      have heq : argmaxGo logits (n + 1) v (some m) best
          = argmaxGo logits n (v + 1) (some m) best := by
        simp [argmaxGo, hcond]
      push_neg at hgt
      have h1 : ∀ u, u < v + 1 → logits u ≤ m := by
        intro u hu
        rcases Nat.lt_succ_iff_lt_or_eq.mp hu with h | h
        · exact hle u h
        · exact h ▸ hgt
      have h2 : ∀ u, u < v + 1 → logits u = m → best ≤ u := by
        intro u hu he
        rcases Nat.lt_succ_iff_lt_or_eq.mp hu with h | h
        · exact htie u h he
        · exact h ▸ le_of_lt hv
      have := ih (v + 1) m best hb (Nat.lt_succ_of_lt hv) h1 h2
      rw [heq]
      have harith : v + 1 + n = v + (n + 1) := by omega
      rw [harith] at this
      exact this

lemma transducerArgmax_spec (logits : ℕ → ℚ) (mv blankId : ℕ) (h : 0 < mv) :
    transducerArgmax logits mv blankId < mv ∧
    (∀ u, u < mv → logits u ≤ logits (transducerArgmax logits mv blankId)) ∧
    (∀ u, u < mv → logits u = logits (transducerArgmax logits mv blankId) →
      transducerArgmax logits mv blankId ≤ u) := by
  obtain ⟨n, rfl⟩ : ∃ n, mv = n + 1 := ⟨mv - 1, by omega⟩
  have heq : transducerArgmax logits (n + 1) blankId
      = argmaxGo logits n 1 (some (logits 0)) 0 := by
    simp [transducerArgmax, argmaxGo, beatsMax]
  have h1 : ∀ u, u < 1 → logits u ≤ logits 0 := by
    intro u hu; interval_cases u; exact le_refl _
  have h2 : ∀ u, u < 1 → logits u = logits 0 → 0 ≤ u := by
    intro u _ _; exact Nat.zero_le u
  have := argmaxGo_spec logits n 1 (logits 0) 0 rfl Nat.one_pos h1 h2
  rw [heq]
  have harith : 1 + n = n + 1 := by omega
  rw [harith] at this
  exact this


lemma innerLoop_count_le {σ δ : Type} (M : TDModel σ δ) (tokensLen t : ℕ) :
    ∀ (fuel : ℕ) (st : TDState σ), (innerLoop M tokensLen t fuel st).2 ≤ fuel := by
  intro fuel
  induction fuel with
  | zero => intro st; simp [innerLoop]
  | succ n ih =>
    intro st
    simp only [innerLoop]
    split
    · simp
    · simpa using Nat.succ_le_succ (ih _)

lemma innerLoop_len_le {σ δ : Type} (M : TDModel σ δ) (tokensLen t : ℕ) :
    ∀ (fuel : ℕ) (st : TDState σ),
      (innerLoop M tokensLen t fuel st).1.tokenIds.length ≤ st.tokenIds.length + fuel := by
  intro fuel
  induction fuel with
  | zero => intro st; simp [innerLoop]
  | succ n ih =>
    intro st
    simp only [innerLoop]
    split
    · simp
    · have h2 := ih ⟨st.tokenIds ++ [selTok M tokensLen t st],
        (newS1 M st).getD st.s1, (newS2 M st).getD st.s2, selTok M tokensLen t st⟩
      dsimp only at h2 ⊢
      rw [List.length_append] at h2
      simp only [List.length_singleton] at h2
      omega

lemma outerLoop_count_le {σ δ : Type} (M : TDModel σ δ) (tokensLen T : ℕ) :
    ∀ (fuel t : ℕ) (st : TDState σ), (outerLoop M tokensLen T fuel t st).2 ≤ fuel := by
  intro fuel
  induction fuel with
  | zero => intro t st; simp [outerLoop]
  | succ n ih =>
    intro t st
    simp only [outerLoop]
    split
    · simpa using Nat.succ_le_succ (ih _ _)
    · simp

lemma outerLoop_len_le {σ δ : Type} (M : TDModel σ δ) (tokensLen T : ℕ) :
    ∀ (fuel t : ℕ) (st : TDState σ), st.tokenIds.length ≤ 509 →
      (outerLoop M tokensLen T fuel t st).1.tokenIds.length ≤ 509 := by
  intro fuel
  induction fuel with
  | zero => intro t st h; simpa [outerLoop] using h
  | succ n ih =>
    intro t st h
    simp only [outerLoop]
    split
    · next hc =>
      apply ih
      have := innerLoop_len_le M tokensLen t 10 st
      omega
    · simpa using h

lemma outerLoop_stop {σ δ : Type} (M : TDModel σ δ) (tokensLen T : ℕ)
    (fuel t : ℕ) (st : TDState σ) (h : 500 ≤ st.tokenIds.length) :
    outerLoop M tokensLen T fuel t st = (st, 0) := by
  cases fuel with
  | zero => rfl
  | succ n =>
    simp only [outerLoop]
    split
    · next hc => omega
    · rfl

/-- Under an always-blank model the inner loop exits on its first iteration
with tokenIds unchanged. -/
lemma innerLoop_blank {σ δ : Type} (M : TDModel σ δ) (tokensLen : ℕ)
    (hb : ∀ (t : ℕ) (st : TDState σ), selTok M tokensLen t st = tokensLen - 1)
    (t fuel : ℕ) (st : TDState σ) :
    innerLoop M tokensLen t (fuel + 1) st =
      ({ st with s1 := (newS1 M st).getD st.s1, s2 := (newS2 M st).getD st.s2 }, 1) := by
  simp [innerLoop, hb t st]

lemma outerLoop_blank {σ δ : Type} (M : TDModel σ δ) (tokensLen T : ℕ)
    (hb : ∀ (t : ℕ) (st : TDState σ), selTok M tokensLen t st = tokensLen - 1) :
    ∀ (fuel t : ℕ) (st : TDState σ), st.tokenIds = [] →
      (outerLoop M tokensLen T fuel t st).1.tokenIds = [] ∧
      (outerLoop M tokensLen T fuel t st).2 = min fuel (T - t) := by
  intro fuel
  induction fuel with
  | zero => intro t st h; simp [outerLoop, h]
  | succ n ih =>
    intro t st h
    simp only [outerLoop]
    by_cases hc : t < T ∧ st.tokenIds.length < 500
    · rw [if_pos hc]
      have hinner : innerLoop M tokensLen t 10 st =
          ({ st with s1 := (newS1 M st).getD st.s1, s2 := (newS2 M st).getD st.s2 }, 1) := by
        have := innerLoop_blank M tokensLen hb t 9 st
        simpa using this
      have harg : ((innerLoop M tokensLen t 10 st).1 : TDState σ).tokenIds = [] := by
        rw [hinner]; exact h
      have := ih (t + 1) (innerLoop M tokensLen t 10 st).1 harg
      refine ⟨this.1, ?_⟩
      simp only [this.2]
      omega
    · rw [if_neg hc]
      have hT : ¬ t < T := by
        intro hlt
        exact hc ⟨hlt, by simp [h]⟩
      simp [h]
      omega



/-- Claim C1: each inner step of the transducer decode commits the newly
returned decoder state buffers in both cases; on a blank selection no token
is appended and the inner loop exits (so the outer loop advances to the next
encoder frame), and on a non-blank selection the token is appended to the
output, `prevToken` is set to it, and the inner loop repeats on the same
frame.  Consequently, under a joiner that always selects blank the decode
emits no tokens and performs exactly `T` outer iterations (5 for `T = 5`,
instantiated in the witness). -/
theorem transducer_inner_step_cases {σ δ : Type} (M : TDModel σ δ) (tokensLen T : ℕ) :
    (∀ (t fuel : ℕ) (st : TDState σ),
      (selTok M tokensLen t st = tokensLen - 1 →
        innerLoop M tokensLen t (fuel + 1) st =
          ({ st with s1 := (newS1 M st).getD st.s1, s2 := (newS2 M st).getD st.s2 }, 1)) ∧
      (selTok M tokensLen t st ≠ tokensLen - 1 →
        innerLoop M tokensLen t (fuel + 1) st =
          ((innerLoop M tokensLen t fuel
             ⟨st.tokenIds ++ [selTok M tokensLen t st],
              (newS1 M st).getD st.s1, (newS2 M st).getD st.s2,
              selTok M tokensLen t st⟩).1,
           (innerLoop M tokensLen t fuel
             ⟨st.tokenIds ++ [selTok M tokensLen t st],
              (newS1 M st).getD st.s1, (newS2 M st).getD st.s2,
              selTok M tokensLen t st⟩).2 + 1))) ∧
    ((∀ (t : ℕ) (st : TDState σ), selTok M tokensLen t st = tokensLen - 1) →
      ∀ s10 s20 : σ, greedyTransducerDecode M tokensLen T s10 s20 = [] ∧
        outerIters M tokensLen T s10 s20 = T) := by
  constructor
  · intro t fuel st
    constructor
    · intro h
      simp [innerLoop, h]
    · intro h
      simp [innerLoop, h]
  · intro hb s10 s20
    have h := outerLoop_blank M tokensLen T hb T 0 (initTD tokensLen s10 s20) rfl
    exact ⟨h.1, by simpa [outerIters] using h.2⟩

/-- Claim C1 witness: with the always-blank model `M0` and a 5-frame encoder
output, the decode emits zero tokens over exactly 5 outer iterations. -/
theorem transducer_inner_step_cases_witness :
    greedyTransducerDecode M0 2 5 () () = [] ∧ outerIters M0 2 5 () () = 5 :=
  (transducer_inner_step_cases M0 2 5).2 (fun _ _ => rfl) () ()

/-- Claim C2: the inner loop of the transducer decode executes at most 10
iterations per frame, the outer loop executes at most `fuel` iterations
(`T` for a whole decode, so the decode terminates for every decoder/joiner
behaviour), and whatever the inner loop did on frame `t` — including
exhausting its bound without a blank — the outer loop proceeds with frame
`t + 1` (forced advance). -/
theorem transducer_decode_frame_bounds {σ δ : Type} (M : TDModel σ δ)
    (tokensLen T t fuel : ℕ) (st : TDState σ) (s10 s20 : σ)
    (h1 : t < T) (h2 : st.tokenIds.length < 500) :
    (innerLoop M tokensLen t 10 st).2 ≤ 10 ∧
    (outerLoop M tokensLen T fuel t st).2 ≤ fuel ∧
    outerIters M tokensLen T s10 s20 ≤ T ∧
    outerLoop M tokensLen T (fuel + 1) t st =
      ((outerLoop M tokensLen T fuel (t + 1) (innerLoop M tokensLen t 10 st).1).1,
       (outerLoop M tokensLen T fuel (t + 1) (innerLoop M tokensLen t 10 st).1).2 + 1) := by
  refine ⟨innerLoop_count_le M tokensLen t 10 st, outerLoop_count_le M tokensLen T fuel t st,
    outerLoop_count_le M tokensLen T T 0 (initTD tokensLen s10 s20), ?_⟩
  simp only [outerLoop, if_pos (And.intro h1 h2)]

/-- Claim C2 witness: the never-blank model `M1` still advances from frame 0
to frame 1 and the whole 3-frame decode performs at most 3 outer iterations. -/
theorem transducer_decode_frame_bounds_witness :
    (innerLoop M1 2 0 10 (initTD 2 () ())).2 ≤ 10 ∧
    (outerLoop M1 2 3 3 0 (initTD 2 () ())).2 ≤ 3 ∧
    outerIters M1 2 3 () () ≤ 3 ∧
    outerLoop M1 2 3 (3 + 1) 0 (initTD 2 () ()) =
      ((outerLoop M1 2 3 3 (0 + 1) (innerLoop M1 2 0 10 (initTD 2 () ())).1).1,
       (outerLoop M1 2 3 3 (0 + 1) (innerLoop M1 2 0 10 (initTD 2 () ())).1).2 + 1) :=
  transducer_decode_frame_bounds M1 2 3 0 3 (initTD 2 () ()) () () (by decide) (by decide)

/-- Claim C3 (amended): the 500-token safety cap is enforced only at outer
(frame) boundaries: once 500 or more tokens have been emitted no further
frame is entered, but within a single frame up to 10 further tokens may
still be appended after the check, so the total emitted token count is
bounded by 509, not by 500. -/
theorem transducer_token_cap {σ δ : Type} (M : TDModel σ δ) (tokensLen T : ℕ)
    (s10 s20 : σ) :
    (greedyTransducerDecode M tokensLen T s10 s20).length ≤ 509 ∧
    (∀ (fuel t : ℕ) (st : TDState σ), 500 ≤ st.tokenIds.length →
      outerLoop M tokensLen T fuel t st = (st, 0)) := by
  constructor
  · exact outerLoop_len_le M tokensLen T T 0 (initTD tokensLen s10 s20) (by simp [initTD])
  · exact outerLoop_stop M tokensLen T

/-- Claim C3 witness: a concrete decode length stays below 509, and a loop
state already holding 500 tokens causes the outer loop to stop at once. -/
theorem transducer_token_cap_witness :
    (greedyTransducerDecode M0 2 5 () ()).length ≤ 509 ∧
    outerLoop M0 2 5 5 0 ⟨List.replicate 500 0, (), (), 1⟩ =
      (⟨List.replicate 500 0, (), (), 1⟩, 0) := by
  refine ⟨(transducer_token_cap M0 2 5 () ()).1, ?_⟩
  exact (transducer_token_cap M0 2 5 () ()).2 5 0 ⟨List.replicate 500 0, (), (), 1⟩ (by rw [List.length_replicate])

set_option maxRecDepth 10000 in
/-- Claim C3 counterexample: under the model `M2` a 56-frame decode emits 504
tokens — strictly more than the claimed hard cap of 500, because the cap is
never re-checked inside the inner loop. -/
theorem transducer_token_cap_cex :
    (greedyTransducerDecode M2 2 56 0 0).length = 504 ∧ 500 < 504 := by decide

/-- Claim C5: in every transducer decode step the selected token is the raw
argmax of the joiner logits restricted to indices
`0 .. min(joinerVocabSize, tokenVocabSize) - 1`: the selection lies in that
range (indices at or beyond the token-vocabulary size are never selected),
it attains the maximum logit on the range, and among the maximizers it is
the lowest index (strict greater-than against a running maximum initialized
to `-Infinity`).  No bias or penalty is applied: the characterization is in
terms of the unmodified joiner logits. -/
theorem transducer_argmax_raw_greedy {σ δ : Type} (M : TDModel σ δ)
    (tokensLen t : ℕ) (st : TDState σ)
    (h : 0 < min (jVocab M t st) tokensLen) :
    selTok M tokensLen t st =
      transducerArgmax (jLogits M t st) (min (jVocab M t st) tokensLen) (tokensLen - 1) ∧
    selTok M tokensLen t st < min (jVocab M t st) tokensLen ∧
    (∀ v, v < min (jVocab M t st) tokensLen →
      jLogits M t st v ≤ jLogits M t st (selTok M tokensLen t st)) ∧
    (∀ v, v < min (jVocab M t st) tokensLen →
      jLogits M t st v = jLogits M t st (selTok M tokensLen t st) →
      selTok M tokensLen t st ≤ v) := by
  have h2 := transducerArgmax_spec (jLogits M t st) (min (jVocab M t st) tokensLen)
    (tokensLen - 1) h
  exact ⟨rfl, h2.1, h2.2.1, h2.2.2⟩

/-- Claim C5 witness: with joiner vocabulary 5 and token vocabulary 2, the
model `M3` has its largest logit at the invalid index 4, and the selection
still lands inside `0 .. 1`. -/
theorem transducer_argmax_raw_greedy_witness :
    selTok M3 2 0 (initTD 2 () ()) =
      transducerArgmax (jLogits M3 0 (initTD 2 () ())) (min (jVocab M3 0 (initTD 2 () ())) 2) (2 - 1) ∧
    selTok M3 2 0 (initTD 2 () ()) < min (jVocab M3 0 (initTD 2 () ())) 2 ∧
    (∀ v, v < min (jVocab M3 0 (initTD 2 () ())) 2 →
      jLogits M3 0 (initTD 2 () ()) v ≤ jLogits M3 0 (initTD 2 () ()) (selTok M3 2 0 (initTD 2 () ()))) ∧
    (∀ v, v < min (jVocab M3 0 (initTD 2 () ())) 2 →
      jLogits M3 0 (initTD 2 () ()) v = jLogits M3 0 (initTD 2 () ()) (selTok M3 2 0 (initTD 2 () ())) →
      selTok M3 2 0 (initTD 2 () ()) ≤ v) :=
  transducer_argmax_raw_greedy M3 2 0 (initTD 2 () ()) (by decide)



/-- Claim C8 (amended): a token beginning with the word-boundary marker `▁`
is stripped of the marker and concatenated with exactly one preceding
space, the final string is trimmed, and `["▁Hello", "▁world"]` decodes to
`"Hello world"`; but a token beginning with the continuation marker `##`
receives no special treatment — it is concatenated verbatim, marker
included, so `["Hel", "##lo"]` decodes to `"Hel##lo"`, not `"Hello"`. -/
theorem transducer_text_markers :
    (∀ (tokens : List String) (text : String) (id : ℕ) (h : id < tokens.length),
      (¬ (tokens.get ⟨id, h⟩ = "<blk>" ∨ tokens.get ⟨id, h⟩ = "<blank>" ∨
          tokens.get ⟨id, h⟩ = "<unk>") →
        (tokens.get ⟨id, h⟩).data.head? = some '▁' →
        transducerTokenStep tokens text id =
          text ++ " " ++ ⟨(tokens.get ⟨id, h⟩).data.drop 1⟩) ∧
      (¬ (tokens.get ⟨id, h⟩ = "<blk>" ∨ tokens.get ⟨id, h⟩ = "<blank>" ∨
          tokens.get ⟨id, h⟩ = "<unk>") →
        ¬ (tokens.get ⟨id, h⟩).data.head? = some '▁' →
        transducerTokenStep tokens text id = text ++ tokens.get ⟨id, h⟩)) ∧
    decodeTransducerTokens ["▁Hello", "▁world"] [0, 1] = "Hello world" ∧
    decodeTransducerTokens ["Hel", "##lo"] [0, 1] = "Hel##lo" := by
  refine ⟨?_, by decide, by decide⟩
  intro tokens text id h
  constructor
  · intro hs hw
    simp only [transducerTokenStep, dif_pos h]
    rw [if_neg hs, if_pos hw]
  · intro hs hw
    simp only [transducerTokenStep, dif_pos h]
    rw [if_neg hs, if_neg hw]

/-- Claim C8 witness: the per-step marker rules instantiated at a concrete
vocabulary and accumulator. -/
theorem transducer_text_markers_witness :
    transducerTokenStep ["▁ab", "cd"] "x" 0 =
      "x" ++ " " ++ ⟨("▁ab" : String).data.drop 1⟩ ∧
    transducerTokenStep ["▁ab", "cd"] "x" 1 = "x" ++ "cd" :=
  ⟨(transducer_text_markers.1 ["▁ab", "cd"] "x" 0 (by decide)).1 (by decide) (by decide),
   (transducer_text_markers.1 ["▁ab", "cd"] "x" 1 (by decide)).2 (by decide) (by decide)⟩

/-- Claim C8 counterexample: the claimed continuation-marker stripping does
not happen — `["Hel", "##lo"]` decodes to `"Hel##lo"`, not `"Hello"`. -/
theorem transducer_text_markers_cex :
    decodeTransducerTokens ["Hel", "##lo"] [0, 1] = "Hel##lo" ∧
    decodeTransducerTokens ["Hel", "##lo"] [0, 1] ≠ "Hello" := by
  exact ⟨by decide, by decide⟩

lemma writeAll_eval (i : ℕ) (v : ℚ) :
    ∀ (ws : List (ℕ × ℚ)) (a : ℕ → ℚ),
      (∀ p ∈ ws, p.1 = i → p.2 = v) →
      writeAll ws a i = if ws.any (fun p => p.1 == i) then v else a i := by
  intro ws
  induction ws with
  | nil => intro a _; simp [writeAll]
  | cons hd rest ih =>
    intro a h
    have hrest : ∀ p ∈ rest, p.1 = i → p.2 = v := fun p hp => h p (List.mem_cons_of_mem hd hp)
    have := ih (Function.update a hd.1 hd.2) hrest
    simp only [writeAll, List.foldl_cons] at this ⊢
    rw [this]
    by_cases hany : rest.any (fun p => p.1 == i) = true
    · simp [hany, List.any_cons]
    · simp only [Bool.not_eq_true] at hany
      by_cases hj : hd.1 = i
      · have : hd.2 = v := h hd (List.mem_cons_self hd rest) hj
        simp [List.any_cons, hany, hj, Function.update, this]
      · have hupd : Function.update a hd.1 hd.2 i = a i :=
          Function.update_noteq (fun he => hj he.symm) hd.2 a
        simp [List.any_cons, hany, hj, hupd]

lemma mem_padWrites (f : FeatureTensor) (p : ℕ × ℚ) :
    p ∈ padWrites f ↔ ∃ b, b < f.batch ∧ ∃ mel, mel < 80 ∧ ∃ t, t < 3000 ∧
      t < f.timeSteps ∧
      p = (b * 80 * 3000 + mel * 3000 + t,
           f.data (b * f.nMels * f.timeSteps + mel * f.timeSteps + t)) := by
  simp only [padWrites, List.mem_flatMap, List.mem_filterMap, List.mem_range,
    Option.ite_none_right_eq_some, Option.some.injEq]
  constructor
  · rintro ⟨b, hb, mel, hmel, t, ht, hts, hp⟩
    exact ⟨b, hb, mel, hmel, t, ht, hts, hp.symm⟩
  · rintro ⟨b, hb, mel, hmel, t, ht, hts, hp⟩
    exact ⟨b, hb, mel, hmel, t, ht, hts, hp.symm⟩

lemma mem_truncWrites (f : FeatureTensor) (p : ℕ × ℚ) :
    p ∈ truncWrites f ↔ ∃ b, b < f.batch ∧ ∃ mel, mel < 80 ∧ ∃ t, t < 3000 ∧
      p = (b * 80 * 3000 + mel * 3000 + t,
           f.data (b * f.nMels * f.timeSteps + mel * f.timeSteps + t)) := by
  simp only [truncWrites, List.mem_flatMap, List.mem_map, List.mem_range]
  constructor
  · rintro ⟨b, hb, mel, hmel, t, ht, hp⟩
    exact ⟨b, hb, mel, hmel, t, ht, hp.symm⟩
  · rintro ⟨b, hb, mel, hmel, t, ht, hp⟩
    exact ⟨b, hb, mel, hmel, t, ht, hp.symm⟩



/-- Claim C6: for an 80-mel-bin feature tensor, when `timeSteps < 3000` the
result is a `[batch, 80, 3000]` tensor whose first `timeSteps` frames of
every mel row equal the input and whose remaining frames are exactly zero
(no truncation warning); when `timeSteps > 3000` the result keeps exactly
the first 3000 frames of every mel row, discards the rest, and raises the
truncation warning flag. -/
theorem pad_truncate_spec (f : FeatureTensor) (hm : f.nMels = 80) :
    (f.timeSteps < 3000 →
      ∃ g, padFeaturesToWhisperLength f = .ok (g, false) ∧
        g.batch = f.batch ∧ g.nMels = 80 ∧ g.timeSteps = 3000 ∧
        ∀ b, b < f.batch → ∀ mel, mel < 80 → ∀ t, t < 3000 →
          g.data (b * 80 * 3000 + mel * 3000 + t) =
            if t < f.timeSteps then
              f.data (b * f.nMels * f.timeSteps + mel * f.timeSteps + t)
            else 0) ∧
    (3000 < f.timeSteps →
      ∃ g, padFeaturesToWhisperLength f = .ok (g, true) ∧
        g.batch = f.batch ∧ g.nMels = 80 ∧ g.timeSteps = 3000 ∧
        ∀ b, b < f.batch → ∀ mel, mel < 80 → ∀ t, t < 3000 →
          g.data (b * 80 * 3000 + mel * 3000 + t) =
            f.data (b * f.nMels * f.timeSteps + mel * f.timeSteps + t)) := by
  constructor
  · intro hlt
    have hne3 : ¬ f.timeSteps = 3000 := by omega
    refine ⟨{ data := writeAll (padWrites f) (fun _ => 0),
              batch := f.batch, nMels := 80, timeSteps := 3000 },
      by rw [padFeaturesToWhisperLength, if_neg (by simp [hm]), if_neg hne3, if_pos hlt],
      rfl, rfl, rfl, ?_⟩
    intro b hb mel hmel t ht
    by_cases hts : t < f.timeSteps
    · have hmem : (b * 80 * 3000 + mel * 3000 + t,
          f.data (b * f.nMels * f.timeSteps + mel * f.timeSteps + t)) ∈ padWrites f :=
        (mem_padWrites f _).mpr ⟨b, hb, mel, hmel, t, ht, hts, rfl⟩
      have hkey : ∀ p ∈ padWrites f, p.1 = b * 80 * 3000 + mel * 3000 + t →
          p.2 = f.data (b * f.nMels * f.timeSteps + mel * f.timeSteps + t) := by
        intro p hp hk
        obtain ⟨b2, hb2, mel2, hmel2, t2, ht2, hts2, rfl⟩ := (mem_padWrites f p).mp hp
        have hk2 : b2 * 80 * 3000 + mel2 * 3000 + t2 = b * 80 * 3000 + mel * 3000 + t := hk
        obtain ⟨rfl, rfl, rfl⟩ : b2 = b ∧ mel2 = mel ∧ t2 = t := by omega
        rfl
      dsimp only
      rw [writeAll_eval _ _ (padWrites f) (fun _ => 0) hkey,
        if_pos (List.any_eq_true.mpr ⟨_, hmem, by simp⟩), if_pos hts]
    · have hkey : ∀ p ∈ padWrites f, p.1 = b * 80 * 3000 + mel * 3000 + t →
          p.2 = 0 := by
        intro p hp hk
        exfalso
        obtain ⟨b2, hb2, mel2, hmel2, t2, ht2, hts2, rfl⟩ := (mem_padWrites f p).mp hp
        have hk2 : b2 * 80 * 3000 + mel2 * 3000 + t2 = b * 80 * 3000 + mel * 3000 + t := hk
        omega
      have hany : (padWrites f).any (fun p => p.1 == b * 80 * 3000 + mel * 3000 + t) = false := by
        by_contra hc
        rw [Bool.not_eq_false] at hc
        obtain ⟨p, hp, hpk⟩ := List.any_eq_true.mp hc
        obtain ⟨b2, hb2, mel2, hmel2, t2, ht2, hts2, rfl⟩ := (mem_padWrites f p).mp hp
        simp only [beq_iff_eq] at hpk
        have hk2 : b2 * 80 * 3000 + mel2 * 3000 + t2 = b * 80 * 3000 + mel * 3000 + t := hpk
        omega
      dsimp only
      rw [writeAll_eval _ _ (padWrites f) (fun _ => 0) hkey, hany, if_neg hts]
      simp
  · intro hgt
    have hne3 : ¬ f.timeSteps = 3000 := by omega
    have hnlt : ¬ f.timeSteps < 3000 := by omega
    refine ⟨{ data := writeAll (truncWrites f) (fun _ => 0),
              batch := f.batch, nMels := 80, timeSteps := 3000 },
      by rw [padFeaturesToWhisperLength, if_neg (by simp [hm]), if_neg hne3, if_neg hnlt],
      rfl, rfl, rfl, ?_⟩
    intro b hb mel hmel t ht
    have hmem : (b * 80 * 3000 + mel * 3000 + t,
        f.data (b * f.nMels * f.timeSteps + mel * f.timeSteps + t)) ∈ truncWrites f :=
      (mem_truncWrites f _).mpr ⟨b, hb, mel, hmel, t, ht, rfl⟩
    have hkey : ∀ p ∈ truncWrites f, p.1 = b * 80 * 3000 + mel * 3000 + t →
        p.2 = f.data (b * f.nMels * f.timeSteps + mel * f.timeSteps + t) := by
      intro p hp hk
      obtain ⟨b2, hb2, mel2, hmel2, t2, ht2, rfl⟩ := (mem_truncWrites f p).mp hp
      have hk2 : b2 * 80 * 3000 + mel2 * 3000 + t2 = b * 80 * 3000 + mel * 3000 + t := hk
      obtain ⟨rfl, rfl, rfl⟩ : b2 = b ∧ mel2 = mel ∧ t2 = t := by omega
      rfl
    dsimp only
    rw [writeAll_eval _ _ (truncWrites f) (fun _ => 0) hkey,
      if_pos (List.any_eq_true.mpr ⟨_, hmem, by simp⟩)]

/-- Claim C6 witness: the padding case instantiated at a 2-frame tensor and
the truncation case at a 3001-frame tensor. -/
theorem pad_truncate_spec_witness :
    (∃ g, padFeaturesToWhisperLength fPad0 = .ok (g, false) ∧
      g.batch = fPad0.batch ∧ g.nMels = 80 ∧ g.timeSteps = 3000 ∧
      ∀ b, b < fPad0.batch → ∀ mel, mel < 80 → ∀ t, t < 3000 →
        g.data (b * 80 * 3000 + mel * 3000 + t) =
          if t < fPad0.timeSteps then
            fPad0.data (b * fPad0.nMels * fPad0.timeSteps + mel * fPad0.timeSteps + t)
          else 0) ∧
    (∃ g, padFeaturesToWhisperLength fTrunc0 = .ok (g, true) ∧
      g.batch = fTrunc0.batch ∧ g.nMels = 80 ∧ g.timeSteps = 3000 ∧
      ∀ b, b < fTrunc0.batch → ∀ mel, mel < 80 → ∀ t, t < 3000 →
        g.data (b * 80 * 3000 + mel * 3000 + t) =
          fTrunc0.data (b * fTrunc0.nMels * fTrunc0.timeSteps + mel * fTrunc0.timeSteps + t)) :=
  ⟨(pad_truncate_spec fPad0 rfl).1 (by decide),
   (pad_truncate_spec fTrunc0 rfl).2 (by decide)⟩


lemma promptTokens_length (language : String) : (promptTokens language).length = 4 := by
  simp [promptTokens]

lemma eot_notin_prompt (language : String) : (50257 : ℕ) ∉ promptTokens language := by
  unfold promptTokens
  rcases eq_or_ne language "fr" with h | h
  · simp [h]
  · rcases eq_or_ne language "en" with h2 | h2
    · simp [h, h2]
    · simp [h, h2]

lemma autoregressiveGo_shape (g : List ℕ → (ℕ → ℚ) × ℕ) :
    ∀ (fuel : ℕ) (acc : List ℕ), ∃ ext, autoregressiveGo g fuel acc = acc ++ ext ∧
      (∀ x ∈ ext, x ≠ 50257) ∧ ext.length ≤ fuel := by
  intro fuel
  induction fuel with
  | zero => intro acc; exact ⟨[], by simp [autoregressiveGo]⟩
  | succ n ih =>
    intro acc
    simp only [autoregressiveGo]
    by_cases hn : whisperArgmax (g acc).1 (g acc).2 = 50257
    · exact ⟨[], by simp [hn]⟩
    · obtain ⟨ext, he, hne, hlen⟩ := ih (acc ++ [whisperArgmax (g acc).1 (g acc).2])
      refine ⟨whisperArgmax (g acc).1 (g acc).2 :: ext, ?_, ?_, by simpa using hlen⟩
      · rw [if_neg hn, he]
        simp
      · intro x hx
        rcases List.mem_cons.mp hx with h | h
        · exact h ▸ hn
        · exact hne x h

lemma autoregressiveGo_stop (g : List ℕ → (ℕ → ℚ) × ℕ) (fuel : ℕ) (acc : List ℕ)
    (h : whisperArgmax (g acc).1 (g acc).2 = 50257) :
    autoregressiveGo g (fuel + 1) acc = acc := by
  simp only [autoregressiveGo]
  rw [if_pos h]

/-- Claim C7: for every logits oracle, the decoded sequence starts with the
4-token prompt, never contains the end-of-text token 50257, and has length
at most 448; and when the very first free-generation argmax is end-of-text,
the result is exactly the prompt.  Both termination causes (end-of-text and
the length cap) return normally. -/
theorem autoregressive_decode_spec (g : List ℕ → (ℕ → ℚ) × ℕ) (language : String) :
    (autoregressiveDecode g language).take 4 = promptTokens language ∧
    (50257 : ℕ) ∉ autoregressiveDecode g language ∧
    (autoregressiveDecode g language).length ≤ 448 ∧
    (whisperArgmax (g (promptTokens language)).1 (g (promptTokens language)).2 = 50257 →
      autoregressiveDecode g language = promptTokens language) := by
  obtain ⟨ext, he, hne, hlen⟩ :=
    autoregressiveGo_shape g (448 - (promptTokens language).length) (promptTokens language)
  have hd : autoregressiveDecode g language = promptTokens language ++ ext := he
  refine ⟨?_, ?_, ?_, ?_⟩
  · rw [hd, show (4 : ℕ) = (promptTokens language).length from (promptTokens_length language).symm,
      List.take_left]
  · rw [hd]
    intro hmem
    rcases List.mem_append.mp hmem with h | h
    · exact eot_notin_prompt language h
    · exact hne _ h rfl
  · rw [hd]
    have h4 := promptTokens_length language
    rw [List.length_append]
    rw [h4] at hlen ⊢
    omega
  · intro harg
    unfold autoregressiveDecode
    rw [promptTokens_length language]
    rw [show (448 - 4 : ℕ) = 443 + 1 from rfl]
    exact autoregressiveGo_stop g 443 (promptTokens language) harg

lemma argmax_indicator (target vs : ℕ) (h : target < vs) :
    transducerArgmax (fun v => if v = target then (1 : ℚ) else 0) vs 0 = target := by
  obtain ⟨hr, hmax, htie⟩ :=
    transducerArgmax_spec (fun v => if v = target then (1 : ℚ) else 0) vs 0 (by omega)
  have h1 := hmax target h
  simp only [if_pos rfl] at h1
  by_cases he : transducerArgmax (fun v => if v = target then (1 : ℚ) else 0) vs 0 = target
  · exact he
  · rw [if_neg he] at h1
    norm_num at h1

/-- Claim C7 witness: an oracle whose first free-generation argmax is the
end-of-text token yields exactly the 4 prompt tokens. -/
theorem autoregressive_decode_spec_witness :
    (autoregressiveDecode gEOT "fr").take 4 = promptTokens "fr" ∧
    (50257 : ℕ) ∉ autoregressiveDecode gEOT "fr" ∧
    (autoregressiveDecode gEOT "fr").length ≤ 448 ∧
    autoregressiveDecode gEOT "fr" = promptTokens "fr" := by
  have h := autoregressive_decode_spec gEOT "fr"
  have harg : whisperArgmax (gEOT (promptTokens "fr")).1 (gEOT (promptTokens "fr")).2 = 50257 :=
    argmax_indicator 50257 50258 (by omega)
  exact ⟨h.1, h.2.1, h.2.2.1, h.2.2.2 harg⟩


/-- Claim C9 is contradicted by the code: after `cleanup()` the encoder,
decoder, decoder-with-past and single-model sessions and the tokenizer are
cleared and `isLoaded` is false, but `joinerSession` is never released —
for every engine state it is left untouched, so after a transducer load it
remains set. -/
theorem cleanup_leaves_joiner :
    (cleanup loadedTransducerState).joinerSession = some 3 ∧
    (cleanup loadedTransducerState).encoderSession = none ∧
    (cleanup loadedTransducerState).decoderSession = none ∧
    (cleanup loadedTransducerState).decoderWithPastSession = none ∧
    (cleanup loadedTransducerState).session = none ∧
    (cleanup loadedTransducerState).tokenizer = none ∧
    (cleanup loadedTransducerState).isLoaded = false ∧
    (∀ (S TK : Type) (st : EngineState S TK), (cleanup st).joinerSession = st.joinerSession) := by
  refine ⟨rfl, rfl, rfl, rfl, rfl, rfl, rfl, ?_⟩
  intro S TK st
  simp only [cleanup]
  split <;> split <;> split <;> split <;> split <;> rfl



lemma finalizeLoad_spec {S TK : Type} (r : Except String Unit × EngineState S TK) :
    ((finalizeLoad r).1.success = true ∧ (finalizeLoad r).1.error = none) ∨
    ((finalizeLoad r).1.success = false ∧ (finalizeLoad r).1.error.isSome = true ∧
     (finalizeLoad r).2.isLoaded = false) := by
  rcases r with ⟨exc, st2⟩
  cases exc <;> simp [finalizeLoad]

/-- Claim C10: `loadModel` is total over failure — for every directory
environment, runtime behaviour and starting state it either resolves with
`{ success: true }`, or resolves with `{ success: false }` carrying an error
message and leaving `isLoaded` false; nothing escapes the catch. -/
theorem loadModel_total {S TK : Type} (env : ModelDirEnv) (rt : RtEnv S TK)
    (dir : String) (st : EngineState S TK) :
    ((loadModel env rt dir st).1.success = true ∧ (loadModel env rt dir st).1.error = none) ∨
    ((loadModel env rt dir st).1.success = false ∧
     (loadModel env rt dir st).1.error.isSome = true ∧
     (loadModel env rt dir st).2.isLoaded = false) := by
  unfold loadModel
  exact finalizeLoad_spec _

/-- Claim C4 (amended): a model directory without the quantized transducer
encoder whose `config.json` declares `model_type: transducer` is dispatched
to `loadTransducerModel`, i.e. classified as the in-process `Transducer`
variant — architecture string `"transducer"`, three graphs opened as
in-process tensor sessions — not as an externally-managed variant. -/
theorem config_transducer_in_process (env : ModelDirEnv)
    (h1 : env.fsExists "encoder.int8.onnx" = false)
    (h2 : env.fsExists "config.json" = true)
    (h3 : env.configModelType = .ok (some "transducer")) :
    detectLoader env = .ok .transducerGraphs ∧
    isExternalProcess .transducerGraphs = false ∧
    sessionsOpened .transducerGraphs = 3 ∧
    architectureOf .transducerGraphs = "transducer" := by
  refine ⟨?_, rfl, rfl, rfl⟩
  simp [detectLoader, h1, h2, h3, Except.map]

/-- Claim C4 counterexample: for the concrete directory `envConfigTransducer`
the dispatch target is the in-process transducer loader, which is not the
external-process variant and opens a nonzero number of sessions — refuting
"ExternalProcess … no graphs opened as in-process sessions". -/
theorem config_transducer_in_process_cex :
    detectLoader envConfigTransducer = .ok .transducerGraphs ∧
    isExternalProcess .transducerGraphs = false ∧
    sessionsOpened .transducerGraphs ≠ 0 :=
  ⟨rfl, rfl, by decide⟩

/-- Claim C4 witness: the amended claim instantiated at `envConfigTransducer`. -/
theorem config_transducer_in_process_witness :
    detectLoader envConfigTransducer = .ok .transducerGraphs ∧
    isExternalProcess .transducerGraphs = false ∧
    sessionsOpened .transducerGraphs = 3 ∧
    architectureOf .transducerGraphs = "transducer" :=
  config_transducer_in_process envConfigTransducer rfl rfl rfl


end Freesper
